import Mathlib

/-!
Verification development for the page-cache core of the `maridbel` data store:
buffer pool, LRU-K eviction policy, disk scheduler and one-shot channel.
The definitions below are shallow embeddings of the Rust sources
(`src/storage/buffer/lruk_eviction.rs`, `src/storage/buffer/frame.rs`,
`src/storage/buffer/buffer_pool.rs`, `src/storage/disk/disk_scheduler.rs`,
`crates/oneshot/src/oneshot.rs`).  Stateful code is modelled by explicit state
passing; code that can panic returns `Option` or `Except`.  `u64`/`u32`/`u16`
quantities are modelled as `Nat`; overflow (which would need more than 2^64
recorded accesses, far beyond any execution considered here) is not modelled.
-/

set_option maxRecDepth 100000

/-! ## Configuration (`src/config.rs`) -/

/-- Page size in bytes (`config.rs`: `PAGE_SIZE = 4096`). -/
def PAGE_SIZE : Nat := 4096

/-- Default pool capacity (`config.rs`: `BUFFER_POOL_N_FRAMES = 69`). -/
def BUFFER_POOL_N_FRAMES : Nat := 69

/-- Modelled from the spec: `THE_EMPTY_PAGE` is referenced from
`storage::page` by the disk scheduler but its definition is absent from the
given sources; per the spec it is "an all-zero `PAGE_SIZE` block". -/
def THE_EMPTY_PAGE : List Nat := List.replicate PAGE_SIZE 0

/-! ## LRU-K eviction policy (`src/storage/buffer/lruk_eviction.rs`)

The `HashMap<FrameId, LRUKNode>` store is modelled as a `List LRUKNode`;
the list order stands for the (arbitrary) iteration order of the hash map.
`LinkedList<u64>` histories are oldest-first: `push_back` appends at the end,
`pop_front` removes the head. -/

abbrev FrameId := Nat

abbrev PageId := Nat

/-- `eviction.rs`: access kinds; `record_access` ignores its value. -/
inductive AccessType where
  | Lookup
  | Scan
  | Index
deriving DecidableEq

structure LRUKNode where
  frame_id : FrameId
  is_evictable : Bool
  history : List Nat
deriving DecidableEq

structure LRUKEvictionPolicy where
  k : Nat
  nodes_store : List LRUKNode
  current_timestamp : Nat
deriving DecidableEq

/-- `lruk_eviction.rs`: `BACKWARD_DISTANCE_INF = u64::MAX`. -/
def BACKWARD_DISTANCE_INF : Nat := 2 ^ 64 - 1

/-- `LRUKEvictionPolicy::new` (the `assert!(k > 0)` is carried as a
hypothesis `1 ≤ k` by the theorems that need it). -/
def LRUKEvictionPolicy.new (k _max_size : Nat) : LRUKEvictionPolicy :=
  ⟨k, [], 0⟩

/-- Lookup in the node store (`HashMap::get`/`entry` by frame id). -/
def findNode (nodes : List LRUKNode) (fid : FrameId) : Option LRUKNode :=
  nodes.find? (fun n => n.frame_id == fid)

/-- Pointwise update of the node with the given frame id (`HashMap::get_mut`). -/
def updateNode (nodes : List LRUKNode) (fid : FrameId) (f : LRUKNode → LRUKNode) :
    List LRUKNode :=
  nodes.map (fun n => if n.frame_id == fid then f n else n)

/-- `LRUKEvictionPolicy::size`: number of evictable nodes. -/
def LRUKEvictionPolicy.size (p : LRUKEvictionPolicy) : Nat :=
  (p.nodes_store.filter (fun n => n.is_evictable)).length

/-- `LRUKEvictionPolicy::record_access`: bump the counter (`fetch_add`
returns the old value, used as `now`), insert a default node if absent,
drop the oldest history entry when the history already holds `k`,
append `now`.  The `AccessType` argument is ignored, as in the source. -/
def LRUKEvictionPolicy.record_access (p : LRUKEvictionPolicy) (fid : FrameId)
    (_ty : AccessType) : LRUKEvictionPolicy :=
  let now := p.current_timestamp
  let push := fun (n : LRUKNode) =>
    let h := if n.history.length = p.k then n.history.tail else n.history
    { n with history := h ++ [now] }
  let nodes :=
    if (findNode p.nodes_store fid).isSome then
      updateNode p.nodes_store fid push
    else
      p.nodes_store ++ [push ⟨fid, false, []⟩]
  { p with nodes_store := nodes, current_timestamp := now + 1 }

/-- `LRUKEvictionPolicy::set_evictable`; `none` models the panic on an
unknown frame id. -/
def LRUKEvictionPolicy.set_evictable (p : LRUKEvictionPolicy) (fid : FrameId)
    (b : Bool) : Option LRUKEvictionPolicy :=
  let nodes := updateNode p.nodes_store fid (fun n => { n with is_evictable := b })
  if (findNode p.nodes_store fid).isSome then
    some { p with nodes_store := nodes }
  else
    none

/-- `LRUKEvictionPolicy::remove`: drops the node unconditionally. -/
def LRUKEvictionPolicy.remove (p : LRUKEvictionPolicy) (fid : FrameId) :
    LRUKEvictionPolicy :=
  { p with nodes_store := p.nodes_store.filter (fun n => !(n.frame_id == fid)) }

/-- Accumulator of the selection loop in `LRUKEvictionPolicy::evict`. -/
structure EvictScan where
  frame_to_evict : Option FrameId
  least_recent_access : Nat
  max_backward_distance : Nat
deriving DecidableEq

/-- One iteration of the selection loop in `LRUKEvictionPolicy::evict`.
`last_access` is `frame.history.iter().last()`: the newest recorded
timestamp (histories are oldest-first).  The in-loop
`assert!(!history.is_empty() && history.len() <= k)` is not modelled as a
branch; its condition is the invariant established for claim C8, and the
`unwrap` of `last()` is rendered by `getLast?.getD 0`. -/
def evictStep (k cur : Nat) (st : EvictScan) (frame : LRUKNode) : EvictScan :=
  if !frame.is_evictable then st
  else
    let last_access := frame.history.getLast?.getD 0
    let less_than_k_accesses := frame.history.length < k
    if st.max_backward_distance = BACKWARD_DISTANCE_INF then
      if less_than_k_accesses && decide (last_access < st.least_recent_access) then
        { st with least_recent_access := last_access,
                  frame_to_evict := some frame.frame_id }
      else st
    else if less_than_k_accesses then
      { frame_to_evict := some frame.frame_id,
        least_recent_access := last_access,
        max_backward_distance := BACKWARD_DISTANCE_INF }
    else
      let backward_distance := cur - last_access
      if backward_distance > st.max_backward_distance then
        { st with max_backward_distance := backward_distance,
                  frame_to_evict := some frame.frame_id }
      else st

/-- `LRUKEvictionPolicy::evict`: scan all nodes, then remove and return the
selected victim (`None` when nothing was selected). -/
def LRUKEvictionPolicy.evict (p : LRUKEvictionPolicy) :
    Option FrameId × LRUKEvictionPolicy :=
  let final := p.nodes_store.foldl (evictStep p.k p.current_timestamp) ⟨none, 0, 0⟩
  match final.frame_to_evict with
  | some fid => (some fid, p.remove fid)
  | none => (none, p)

/-- Follows the spec text for claim C1 (not the source): the backward
K-distance of a node is `+∞` (`none`) when its history has fewer than `k`
entries, and otherwise `current_timestamp` minus the oldest recorded
timestamp (the timestamp of the K-th most recent access). -/
def specBackwardKDistance (k cur : Nat) (n : LRUKNode) : Option Nat :=
  if n.history.length < k then none else some (cur - n.history.head?.getD 0)

/-! ## Policy operation sequences (for the reachability claims C1 and C8) -/

/-- The public operations of the eviction policy, as invoked by clients. -/
inductive PolicyOp where
  | record (fid : FrameId) (ty : AccessType)
  | setEv (fid : FrameId) (b : Bool)
  | rem (fid : FrameId)
  | evictOp
deriving DecidableEq

/-- Apply one operation; `none` models a panic (`set_evictable` on an
unknown frame id). -/
def applyOp (p : LRUKEvictionPolicy) : PolicyOp → Option LRUKEvictionPolicy
  | .record fid ty => some (p.record_access fid ty)
  | .setEv fid b => p.set_evictable fid b
  | .rem fid => some (p.remove fid)
  | .evictOp => some (p.evict).2

/-- Run a sequence of policy operations. -/
def runOps (p : LRUKEvictionPolicy) : List PolicyOp → Option LRUKEvictionPolicy
  | [] => some p
  | op :: rest => (applyOp p op).bind (fun q => runOps q rest)

/-! ## Frames and page guards (`src/storage/buffer/frame.rs`) -/

structure Frame where
  pin_count : Nat
  is_dirty : Bool
  data : List Nat
deriving DecidableEq

/-- `Frame::new`. -/
def Frame.new (data : List Nat) : Frame :=
  ⟨0, false, data⟩

/-- `PageReadGuard::new`: record a `Lookup` access, mark the frame
non-evictable, increment the pin count.  `none` models the
`set_evictable` panic on an unknown frame id (unreachable here, since
`record_access` inserts the node first). -/
def PageReadGuard.new (pol : LRUKEvictionPolicy) (f : Frame) (fid : FrameId) :
    Option (LRUKEvictionPolicy × Frame) :=
  let pol1 := pol.record_access fid AccessType.Lookup
  (pol1.set_evictable fid false).map
    (fun pol2 => (pol2, { f with pin_count := f.pin_count + 1 }))

/-- `PageWriteGuard::new`: same as the read guard, plus `is_dirty := true`. -/
def PageWriteGuard.new (pol : LRUKEvictionPolicy) (f : Frame) (fid : FrameId) :
    Option (LRUKEvictionPolicy × Frame) :=
  let pol1 := pol.record_access fid AccessType.Lookup
  (pol1.set_evictable fid false).map
    (fun pol2 => (pol2, { f with pin_count := f.pin_count + 1, is_dirty := true }))

/-- `impl Drop for PageReadGuard`: decrement the pin count; if it reached
zero, mark the frame evictable.  `none` models the `set_evictable` panic
on an unknown frame id. -/
def PageReadGuard.dropGuard (pol : LRUKEvictionPolicy) (f : Frame) (fid : FrameId) :
    Option (LRUKEvictionPolicy × Frame) :=
  let f1 := { f with pin_count := f.pin_count - 1 }
  if f1.pin_count = 0 then
    (pol.set_evictable fid true).map (fun pol1 => (pol1, f1))
  else
    some (pol, f1)

/-- `impl Drop for PageWriteGuard`: identical to the read-guard drop in the
source (the flush of dirty pages is a `TODO` there). -/
def PageWriteGuard.dropGuard (pol : LRUKEvictionPolicy) (f : Frame) (fid : FrameId) :
    Option (LRUKEvictionPolicy × Frame) :=
  PageReadGuard.dropGuard pol f fid

/-! ## Disk scheduler (`src/storage/disk/disk_scheduler.rs`)

The generic `R: Read + Write + Seek` handle is modelled by a record of
state-passing operations; `Cursor<Vec<u8>>` (the in-memory backing store used
by the repository's tests) is one instance.  The single worker services one
request at a time, so its `Read` branch is a pure function of the store and
the destination frame. -/

inductive ScheduleError where
  | IOError
  | UnexpectedEof
  | Unknown
deriving DecidableEq

abbrev ScheduleResult := Except ScheduleError Unit

instance {ε T : Type} [DecidableEq ε] [DecidableEq T] : DecidableEq (Except ε T) :=
  fun a b =>
  match a, b with
  | .ok x, .ok y =>
    if h : x = y then isTrue (by rw [h]) else isFalse (fun hh => h (by injection hh))
  | .ok _, .error _ => isFalse (fun h => Except.noConfusion h)
  | .error _, .ok _ => isFalse (fun h => Except.noConfusion h)
  | .error x, .error y =>
    if h : x = y then isTrue (by rw [h]) else isFalse (fun hh => h (by injection hh))

inductive ReadExactError where
  | unexpectedEof
  | otherErr
deriving DecidableEq

/-- Interface of the backing-store handle `R: Read + Write + Seek`.
`seek` and `writeAll` return a success flag next to the new state;
`readExact` either returns exactly the requested bytes or an error kind. -/
structure ReaderWriter (σ : Type) where
  seek : σ → Nat → σ × Bool
  readExact : σ → Nat → σ × Except ReadExactError (List Nat)
  writeAll : σ → List Nat → σ × Bool

/-- `page_id_to_file_offset`. -/
def page_id_to_file_offset (id : PageId) : Nat :=
  id * PAGE_SIZE

/-- Outcome of the worker servicing one `Read` request: the delivered
`ScheduleResult`, the new store state, the new frame bytes, and whether the
worker thread terminated (the `return` after a seek error).  `panicked`
models the `unwrap()` on the EOF-path `write_all`. -/
inductive WorkerOutcome (σ : Type) where
  | done (res : ScheduleResult) (store : σ) (frame : List Nat) (workerReturned : Bool)
  | panicked (store : σ)
deriving DecidableEq

/-- The worker's `Read` branch: seek to `page_id × PAGE_SIZE`, then
`read_exact` into the frame buffer (whose length is the read size).  A short
read (`UnexpectedEof`) writes `THE_EMPTY_PAGE` to the store at the current
position, fills the frame with `THE_EMPTY_PAGE`, and reports success.  Any
other read failure delivers an I/O error. -/
def workerRead {σ : Type} (rw : ReaderWriter σ) (store : σ) (page_id : PageId)
    (frameData : List Nat) : WorkerOutcome σ :=
  match rw.seek store (page_id_to_file_offset page_id) with
  | (s, false) => .done (.error .IOError) s frameData true
  | (s, true) =>
    match rw.readExact s frameData.length with
    | (s1, .ok bytes) => .done (.ok ()) s1 bytes false
    | (s1, .error .unexpectedEof) =>
      match rw.writeAll s1 THE_EMPTY_PAGE with
      | (s2, true) => .done (.ok ()) s2 THE_EMPTY_PAGE false
      | (s2, false) => .panicked s2
    | (s1, .error .otherErr) => .done (.error .IOError) s1 frameData false

/-- An in-memory backing store: `std::io::Cursor<Vec<u8>>`. -/
structure Cursor where
  bytes : List Nat
  pos : Nat
deriving DecidableEq

/-- `Cursor` semantics of the `R` handle: `seek(Start(o))` always succeeds;
`read_exact` succeeds exactly when `pos + n ≤ len`, otherwise it consumes the
remaining bytes and fails with `UnexpectedEof`; `write_all` zero-pads any gap
between the end of the buffer and the cursor, overwrites in place, and always
succeeds. -/
def cursorRW : ReaderWriter Cursor where
  seek := fun c ofs => ({ c with pos := ofs }, true)
  readExact := fun c n =>
    if c.pos + n ≤ c.bytes.length then
      ({ c with pos := c.pos + n }, .ok ((c.bytes.drop c.pos).take n))
    else
      ({ c with pos := max c.pos (min (c.pos + n) c.bytes.length) },
        .error .unexpectedEof)
  writeAll := fun c data =>
    ({ bytes := c.bytes.take c.pos ++ List.replicate (c.pos - c.bytes.length) 0
          ++ data ++ c.bytes.drop (c.pos + data.length),
       pos := c.pos + data.length }, true)

/-- A backing store whose reads always fail with a non-EOF I/O error
(seeks and writes succeed).  Used to exercise the error path of claim C4. -/
def failRW : ReaderWriter Unit where
  seek := fun _ _ => ((), true)
  readExact := fun _ _ => ((), .error .otherErr)
  writeAll := fun _ _ => ((), true)

/-! ### The request queue (`DiskScheduler`, claim C10)

`requests_queue` is a `Vec<QueueRequest>`; `schedule_read` / `schedule_write`
`push` onto its end and the worker `pop`s from its end. -/

inductive QueueRequest where
  | read (page_id : PageId)
  | write (page_id : PageId)
deriving DecidableEq

/-- `Vec::push` as performed by both `schedule_read` and `schedule_write`. -/
def enqueueRequest (q : List QueueRequest) (r : QueueRequest) : List QueueRequest :=
  q ++ [r]

/-- `DiskScheduler::schedule_read`: pushes a `Read` request. -/
def DiskScheduler.schedule_read (q : List QueueRequest) (pid : PageId) :
    List QueueRequest :=
  enqueueRequest q (.read pid)

/-- `DiskScheduler::schedule_write`: pushes a `Write` request. -/
def DiskScheduler.schedule_write (q : List QueueRequest) (pid : PageId) :
    List QueueRequest :=
  enqueueRequest q (.write pid)

/-- The worker's `queue.pop()`: `Vec::pop` removes from the END of the
vector.  Returns the serviced request and the remaining queue. -/
def workerPop (q : List QueueRequest) : Option QueueRequest × List QueueRequest :=
  (q.getLast?, q.dropLast)

/-! ## One-shot channel (`crates/oneshot/src/oneshot.rs`)

The channel is `data: Arc<UnsafeCell<Option<T>>>` shared by the two halves.
Both `send` and `recv` probe `Arc::try_unwrap(self.data)` under the mutex:
the unwrap succeeds exactly when the calling half holds the LAST strong
reference to `data`, i.e. when the peer's reference is gone.  The model
state tracks the deposited value and whether each half's reference to
`data` is still alive.  A successful `send` deposits the value and then
drops the sender's reference (the `Err(shared_data)` binding goes out of
scope before `send` returns, still under the mutex), so the states a `recv`
can observe are exactly: sender alive with an empty slot, or sender gone
with slot either full (send completed) or empty (sender dropped silently). -/

inductive SendError where
  | Closed
  | OtherSend
deriving DecidableEq

inductive ReceiveError where
  | Closed
  | OtherRecv
deriving DecidableEq

structure OneshotChannel (T : Type) where
  slot : Option T
  senderRef : Bool
  receiverRef : Bool
deriving DecidableEq

/-- `oneshot::channel()`: fresh pair, empty slot, both references alive. -/
def oneshotChannel (T : Type) : OneshotChannel T :=
  ⟨none, true, true⟩

/-- `OneshotChannelSender::send`: `Arc::try_unwrap` succeeds (refcount 1,
receiver already dropped) → `Err(Closed)`; otherwise deposit the value,
notify, `Ok`.  Either way the sender's reference is gone afterwards. -/
def OneshotChannelSender.send {T : Type} (c : OneshotChannel T) (v : T) :
    Except SendError Unit × OneshotChannel T :=
  if c.receiverRef then
    (.ok (), { c with slot := some v, senderRef := false })
  else
    (.error .Closed, { c with senderRef := false })

/-- Result of a `recv` call: either it returns, or it blocks on the condvar
(sender alive, slot still empty) until a deposit arrives. -/
inductive RecvOutcome (T : Type) where
  | ret (r : Except ReceiveError T)
  | blocksUntilSend
deriving DecidableEq

/-- `OneshotChannelReceiver::recv`: `Arc::try_unwrap` succeeds (refcount 1,
the sender's reference is gone — whether it sent or not) → `Err(Closed)`,
discarding any deposited value; otherwise wait until the slot is filled and
take the value. -/
def OneshotChannelReceiver.recv {T : Type} (c : OneshotChannel T) :
    RecvOutcome T × OneshotChannel T :=
  if c.senderRef then
    match c.slot with
    | some v => (.ret (.ok v), { c with receiverRef := false, slot := none })
    | none => (.blocksUntilSend, c)
  else
    (.ret (.error .Closed), { c with receiverRef := false })

/-- Dropping the sender half without sending. -/
def dropSenderHalf {T : Type} (c : OneshotChannel T) : OneshotChannel T :=
  { c with senderRef := false }

/-- Dropping the receiver half. -/
def dropReceiverHalf {T : Type} (c : OneshotChannel T) : OneshotChannel T :=
  { c with receiverRef := false }

/-! ## Buffer pool (`src/storage/buffer/buffer_pool.rs`)

Sequential (one caller at a time) semantics of the pool over a generic
backing store.  `load_page_from_disk` in the frozen source submits the read
and `thread::park()`s, never reading the completion result; the model runs
the worker's `Read` branch synchronously and — faithfully — DISCARDS its
result.  The ghost field `lastLoad` records, per frame, the page id of the
latest successful load; it instruments the page-table invariant of claim C3
and has no effect on behaviour. -/

/-- Panics of the pool, surfaced as errors of the model. -/
inductive PoolPanic where
  | poolFull
  | frameOutOfBounds
  | policyPanic
  | workerPanicked
deriving DecidableEq

structure BufferPool (σ : Type) where
  pool_size : Nat
  frames : List Frame
  page_table : List (PageId × FrameId)
  free_list : List FrameId
  eviction_policy : LRUKEvictionPolicy
  store : σ
  lastLoad : List (Option PageId)
deriving DecidableEq

/-- `HashMap::get` on the page table. -/
def lookupPT (pt : List (PageId × FrameId)) (pid : PageId) : Option FrameId :=
  (pt.find? (fun pr => pr.1 == pid)).map (fun pr => pr.2)

/-- `HashMap::insert` on the page table: overwrite if present, else add. -/
def insertPT (pt : List (PageId × FrameId)) (pid : PageId) (fid : FrameId) :
    List (PageId × FrameId) :=
  if (pt.find? (fun pr => pr.1 == pid)).isSome then
    pt.map (fun pr => if pr.1 == pid then (pid, fid) else pr)
  else
    pt ++ [(pid, fid)]

/-- `BufferPool::new`: `pool_size` zeroed frames, free list `[0, …, n)`,
empty page table, fresh LRU-K policy (`LRU_K` is referenced from
`config.rs` but not defined in the given sources, so the history depth `k`
is a parameter here). -/
def BufferPool.new {σ : Type} (pool_size k : Nat) (store : σ) : BufferPool σ :=
  { pool_size := pool_size
    frames := List.replicate pool_size (Frame.new (List.replicate PAGE_SIZE 0))
    page_table := []
    free_list := List.range pool_size
    eviction_policy := LRUKEvictionPolicy.new k pool_size
    store := store
    lastLoad := List.replicate pool_size none }

/-- `BufferPool::try_get_free_frane` (sic): `Vec::pop` takes from the END of
the free list; when the free list is empty, ask the policy to evict. -/
def BufferPool.try_get_free_frane {σ : Type} (s : BufferPool σ) :
    Option FrameId × BufferPool σ :=
  match s.free_list.getLast? with
  | some fid => (some fid, { s with free_list := s.free_list.dropLast })
  | none =>
    ((s.eviction_policy.evict).1,
      { s with eviction_policy := (s.eviction_policy.evict).2 })

/-- `BufferPool::load_page_from_disk`: run the worker's `Read` branch on the
frame's buffer, then continue REGARDLESS of the delivered result — the
frozen source parks the thread and never reads a completion channel (it
passes `thread::current()` where the scheduler expects no such argument, a
mid-refactor slip), so errors are silently dropped.  The ghost `lastLoad`
is updated only on a successful load. -/
def BufferPool.load_page_from_disk {σ : Type} (rw : ReaderWriter σ)
    (s : BufferPool σ) (page_id : PageId) (fid : FrameId) :
    Except PoolPanic (BufferPool σ) :=
  match s.frames.get? fid with
  | none => .error .frameOutOfBounds
  | some f =>
    match workerRead rw s.store page_id f.data with
    | .panicked _ => .error .workerPanicked
    | .done res st newData _ =>
      .ok { s with
              store := st
              frames := s.frames.set fid { f with data := newData }
              lastLoad :=
                match res with
                | .ok _ => s.lastLoad.set fid (some page_id)
                | .error _ => s.lastLoad }

/-- Acquire a read guard on a frame of the pool (`PageReadGuard::new`
applied to `frames[fid]` and the shared policy). -/
def BufferPool.acquireRead {σ : Type} (s : BufferPool σ) (fid : FrameId) :
    Except PoolPanic (BufferPool σ) :=
  match s.frames.get? fid with
  | none => .error .frameOutOfBounds
  | some f =>
    match PageReadGuard.new s.eviction_policy f fid with
    | none => .error .policyPanic
    | some (pol, f1) =>
      .ok { s with eviction_policy := pol, frames := s.frames.set fid f1 }

/-- Acquire a write guard on a frame of the pool (`PageWriteGuard::new`). -/
def BufferPool.acquireWrite {σ : Type} (s : BufferPool σ) (fid : FrameId) :
    Except PoolPanic (BufferPool σ) :=
  match s.frames.get? fid with
  | none => .error .frameOutOfBounds
  | some f =>
    match PageWriteGuard.new s.eviction_policy f fid with
    | none => .error .policyPanic
    | some (pol, f1) =>
      .ok { s with eviction_policy := pol, frames := s.frames.set fid f1 }

/-- `BufferPool::get_page_read`: on a hit, assert the frame id is in bounds
and return a read guard over that frame; on a miss, take a free (or
evicted) frame — panicking with `poolFull` when neither exists — install
the mapping, load from disk, and return a read guard. -/
def BufferPool.get_page_read {σ : Type} (rw : ReaderWriter σ) (s : BufferPool σ)
    (page_id : PageId) : Except PoolPanic (FrameId × BufferPool σ) :=
  match lookupPT s.page_table page_id with
  | some fid =>
    if fid < s.pool_size then
      (s.acquireRead fid).map (fun s1 => (fid, s1))
    else
      .error .frameOutOfBounds
  | none =>
    match s.try_get_free_frane with
    | (none, _) => .error .poolFull
    | (some fid, s1) =>
      let s2 := { s1 with page_table := insertPT s1.page_table page_id fid }
      (s2.load_page_from_disk rw page_id fid).bind
        (fun s3 => (s3.acquireRead fid).map (fun s4 => (fid, s4)))

/-- `BufferPool::get_page_write`: identical control flow with a write guard. -/
def BufferPool.get_page_write {σ : Type} (rw : ReaderWriter σ) (s : BufferPool σ)
    (page_id : PageId) : Except PoolPanic (FrameId × BufferPool σ) :=
  match lookupPT s.page_table page_id with
  | some fid =>
    if fid < s.pool_size then
      (s.acquireWrite fid).map (fun s1 => (fid, s1))
    else
      .error .frameOutOfBounds
  | none =>
    match s.try_get_free_frane with
    | (none, _) => .error .poolFull
    | (some fid, s1) =>
      let s2 := { s1 with page_table := insertPT s1.page_table page_id fid }
      (s2.load_page_from_disk rw page_id fid).bind
        (fun s3 => (s3.acquireWrite fid).map (fun s4 => (fid, s4)))

/-- Replace the bytes of a frame through a held write guard
(`page.write().data = …`, as in the repository's tests). -/
def BufferPool.guardSetData {σ : Type} (s : BufferPool σ) (fid : FrameId)
    (b : List Nat) : BufferPool σ :=
  match s.frames.get? fid with
  | none => s
  | some f => { s with frames := s.frames.set fid { f with data := b } }

/-- Drop a read guard held on a frame of the pool. -/
def BufferPool.dropRead {σ : Type} (s : BufferPool σ) (fid : FrameId) :
    Except PoolPanic (BufferPool σ) :=
  match s.frames.get? fid with
  | none => .error .frameOutOfBounds
  | some f =>
    match PageReadGuard.dropGuard s.eviction_policy f fid with
    | none => .error .policyPanic
    | some (pol, f1) =>
      .ok { s with eviction_policy := pol, frames := s.frames.set fid f1 }

/-- Drop a write guard held on a frame of the pool. -/
def BufferPool.dropWrite {σ : Type} (s : BufferPool σ) (fid : FrameId) :
    Except PoolPanic (BufferPool σ) :=
  match s.frames.get? fid with
  | none => .error .frameOutOfBounds
  | some f =>
    match PageWriteGuard.dropGuard s.eviction_policy f fid with
    | none => .error .policyPanic
    | some (pol, f1) =>
      .ok { s with eviction_policy := pol, frames := s.frames.set fid f1 }

/-! ## Derived definitions used by the claim theorems -/

/-- The node stored for `fid` right after `record_access`: a fresh node with
a single timestamp when absent, otherwise the old node with the (possibly
truncated) history extended by the current timestamp. -/
def recordedNode (p : LRUKEvictionPolicy) (fid : FrameId) : LRUKNode :=
  match findNode p.nodes_store fid with
  | none => ⟨fid, false, [p.current_timestamp]⟩
  | some nd =>
    { nd with history :=
        (if nd.history.length = p.k then nd.history.tail else nd.history)
          ++ [p.current_timestamp] }

/-- The state invariant of the LRU-K policy (claim C8): every tracked node
has between 1 and `k` recorded timestamps, its history is strictly
increasing, and every recorded timestamp is below the current counter. -/
def PolicyInv (p : LRUKEvictionPolicy) : Prop :=
  ∀ nd ∈ p.nodes_store, 1 ≤ nd.history.length ∧ nd.history.length ≤ p.k ∧
    nd.history.Chain' (· < ·) ∧ ∀ t ∈ nd.history, t < p.current_timestamp

/-- Does every page-table entry point at a frame whose latest successful
load (ghost `lastLoad`) was for that page id? -/
def tableLoadsAgree (pt : List (PageId × FrameId)) (ll : List (Option PageId)) :
    Bool :=
  pt.all (fun pr => ll.getD pr.2 none == some pr.1)

/-! ## Scenario definitions used by the claim theorems -/

/-- A reachable policy history for claim C1: with `k = 2`, frame 1 is
accessed at timestamps 0, 1 and 4 (so its retained history is `[1, 4]`),
frame 2 at timestamps 2 and 3; both are then made evictable. -/
def c1Ops : List PolicyOp :=
  [.record 1 .Lookup, .record 1 .Lookup, .record 2 .Lookup, .record 2 .Lookup,
   .record 1 .Lookup, .setEv 1 true, .setEv 2 true]

/-- The policy state that `c1Ops` reaches. -/
def c1State : LRUKEvictionPolicy :=
  ⟨2, [⟨1, true, [1, 4]⟩, ⟨2, true, [2, 3]⟩], 5⟩

/-- The page bytes written under the write guard in the claim C2 scenario. -/
def c2WrittenBytes : List Nat := List.replicate PAGE_SIZE 1

/-- Claim C2 scenario on a one-frame pool over an empty in-memory store:
write `c2WrittenBytes` to page 0 under a write guard and drop the guard;
fetch page 1, which evicts page 0's frame; then take a read guard on page 0
again and return the bytes it exposes. -/
def c2Scenario : Except PoolPanic (List Nat) := do
  let s0 : BufferPool Cursor := BufferPool.new 1 2 ⟨[], 0⟩
  let r1 ← BufferPool.get_page_write cursorRW s0 0
  let s1 := BufferPool.guardSetData r1.2 r1.1 c2WrittenBytes
  let s2 ← BufferPool.dropWrite s1 r1.1
  let r2 ← BufferPool.get_page_read cursorRW s2 1
  let s4 ← BufferPool.dropRead r2.2 r2.1
  let r3 ← BufferPool.get_page_read cursorRW s4 0
  match r3.2.frames.get? r3.1 with
  | some f => pure f.data
  | none => throw .frameOutOfBounds

/-- Claim C3 scenario: fetch page 0 in write mode, drop the guard, then
fetch page 1 (which evicts page 0's frame); returns the page table, the
ghost load record, and the free list of the resulting pool state. -/
def c3Scenario :
    Except PoolPanic
      (List (PageId × FrameId) × List (Option PageId) × List FrameId) := do
  let s0 : BufferPool Cursor := BufferPool.new 1 2 ⟨[], 0⟩
  let r1 ← BufferPool.get_page_write cursorRW s0 0
  let s2 ← BufferPool.dropWrite r1.2 r1.1
  let r2 ← BufferPool.get_page_read cursorRW s2 1
  pure (r2.2.page_table, r2.2.lastLoad, r2.2.free_list)

/-- Claim C4 scenario: a one-frame pool over a backing store whose reads
always fail with a (non-EOF) I/O error; fetch page 0 in read mode. -/
def c4Scenario : Except PoolPanic (FrameId × BufferPool Unit) :=
  BufferPool.get_page_read failRW (BufferPool.new 1 2 ()) 0

/-- The one-shot channel used by the claim C7 theorem. -/
def c7Chan : OneshotChannel Nat := oneshotChannel Nat

/-- The initial pool of the claim C2 and C3 scenarios. -/
def c2S0 : BufferPool Cursor := BufferPool.new 1 2 ⟨[], 0⟩

/-- Pool state after fetching page 0 in write mode from `c2S0`. -/
def c2S1 : BufferPool Cursor :=
  { pool_size := 1
    frames := [⟨1, true, THE_EMPTY_PAGE⟩]
    page_table := [(0, 0)]
    free_list := []
    eviction_policy := ⟨2, [⟨0, false, [0]⟩], 1⟩
    store := ⟨THE_EMPTY_PAGE, PAGE_SIZE⟩
    lastLoad := [some 0] }

/-- `c2S1` after replacing the frame bytes through the write guard. -/
def c2S1b : BufferPool Cursor :=
  { c2S1 with frames := [⟨1, true, c2WrittenBytes⟩] }

/-- `c2S1b` after the write guard is dropped. -/
def c2S2 : BufferPool Cursor :=
  { pool_size := 1
    frames := [⟨0, true, c2WrittenBytes⟩]
    page_table := [(0, 0)]
    free_list := []
    eviction_policy := ⟨2, [⟨0, true, [0]⟩], 1⟩
    store := ⟨THE_EMPTY_PAGE, PAGE_SIZE⟩
    lastLoad := [some 0] }

/-- Pool state after fetching page 1 from `c2S2` (or `c3S2`): frame 0 was
evicted and reloaded with page 1, yet the stale entry `0 ↦ 0` remains in
the page table and the bytes written for page 0 were never flushed. -/
def c2S3 : BufferPool Cursor :=
  { pool_size := 1
    frames := [⟨1, true, THE_EMPTY_PAGE⟩]
    page_table := [(0, 0), (1, 0)]
    free_list := []
    eviction_policy := ⟨2, [⟨0, false, [1]⟩], 2⟩
    store := ⟨THE_EMPTY_PAGE ++ THE_EMPTY_PAGE, PAGE_SIZE + PAGE_SIZE⟩
    lastLoad := [some 1] }

/-- `c2S3` after the read guard on page 1 is dropped. -/
def c2S4 : BufferPool Cursor :=
  { c2S3 with
    frames := [⟨0, true, THE_EMPTY_PAGE⟩]
    eviction_policy := ⟨2, [⟨0, true, [1]⟩], 2⟩ }

/-- Final state of the claim C2 scenario: a read guard on page 0 is held
again (page-table hit on the stale entry). -/
def c2S5 : BufferPool Cursor :=
  { c2S3 with
    frames := [⟨1, true, THE_EMPTY_PAGE⟩]
    eviction_policy := ⟨2, [⟨0, false, [1, 2]⟩], 3⟩ }

/-- `c2S1` after the write guard is dropped without modifying the bytes
(claim C3 scenario). -/
def c3S2 : BufferPool Cursor :=
  { pool_size := 1
    frames := [⟨0, true, THE_EMPTY_PAGE⟩]
    page_table := [(0, 0)]
    free_list := []
    eviction_policy := ⟨2, [⟨0, true, [0]⟩], 1⟩
    store := ⟨THE_EMPTY_PAGE, PAGE_SIZE⟩
    lastLoad := [some 0] }

/-- Pool state reached by fetching page 5 in read mode over an empty store
(claim C5): the frame and the newly extended store region are all zeros. -/
def c5PoolState : BufferPool Cursor :=
  { pool_size := 1
    frames := [⟨1, false, THE_EMPTY_PAGE⟩]
    page_table := [(5, 0)]
    free_list := []
    eviction_policy := ⟨2, [⟨0, false, [0]⟩], 1⟩
    store := ⟨List.replicate (5 * PAGE_SIZE) 0 ++ THE_EMPTY_PAGE,
              5 * PAGE_SIZE + PAGE_SIZE⟩
    lastLoad := [some 5] }

/-- Concrete policy used by the claim C6 witness for the guard-drop part:
frame 0 is already tracked. -/
def c6Pol : LRUKEvictionPolicy := ⟨2, [⟨0, false, [0]⟩], 1⟩

/-- Fresh policy (no tracked nodes) used by the claim C6 witness to
exercise a FIRST guard acquisition, where `record_access` must insert the
absent node. -/
def c6FreshPol : LRUKEvictionPolicy := ⟨2, [], 0⟩

/-- Unpinned frame (`pin_count = 0`) used by the claim C6 witness for the
first-acquisition part. -/
def c6FreshFrame : Frame := ⟨0, false, []⟩

/-- Concrete frame used by the claim C6 witness. -/
def c6Frame : Frame := ⟨1, false, []⟩

/-- Concrete policy node used by the claim C6 witness. -/
def c6Node : LRUKNode := ⟨0, false, [0]⟩

/-- Concrete policy state used by the claim C8 witness. -/
def c8State : LRUKEvictionPolicy := ⟨1, [⟨0, false, [0]⟩], 1⟩

/-- A pool state with an empty free list, a fully pinned (non-evictable)
frame, and page 0 mapped; used by the claim C9 witness. -/
def c9State : BufferPool Unit :=
  { pool_size := 1
    frames := [⟨1, true, THE_EMPTY_PAGE⟩]
    page_table := [(0, 0)]
    free_list := []
    eviction_policy := ⟨2, [⟨0, false, [0]⟩], 1⟩
    store := ()
    lastLoad := [some 0] }
/-! ## Helper lemmas -/

lemma pageSizeNeZero : ¬ PAGE_SIZE = 0 := by decide

lemma pageSizePos : 0 < PAGE_SIZE := by decide

lemma theEmptyPageLength : THE_EMPTY_PAGE.length = PAGE_SIZE := by
  simp only [THE_EMPTY_PAGE, List.length_replicate]

lemma lastSingleton (a : Nat) : ([a] : List Nat).getLast? = some a := rfl

lemma dropLastSingleton (a : Nat) : ([a] : List Nat).dropLast = [] := rfl

lemma twicePageNotLe : ¬ (PAGE_SIZE + PAGE_SIZE ≤ PAGE_SIZE) := by decide

lemma takePageEmpty : List.take PAGE_SIZE THE_EMPTY_PAGE = THE_EMPTY_PAGE := by
  simp only [THE_EMPTY_PAGE, List.take_replicate, min_self]

lemma dropTwicePageEmpty : List.drop (PAGE_SIZE + PAGE_SIZE) THE_EMPTY_PAGE = [] := by
  simp only [THE_EMPTY_PAGE, List.drop_replicate,
    Nat.sub_eq_zero_of_le (Nat.le_add_right PAGE_SIZE PAGE_SIZE), List.replicate_zero]

lemma mem_of_mem_getLast? {l : List Nat} {x : Nat} (h : x ∈ l.getLast?) : x ∈ l := by
  obtain ⟨hne, hx⟩ := List.mem_getLast?_eq_getLast h
  subst hx
  exact List.getLast_mem hne

lemma findNode_nil (fid : FrameId) : findNode [] fid = none := rfl

lemma findNode_updateNode_self (nodes : List LRUKNode) (fid : FrameId)
    (f : LRUKNode → LRUKNode) (hf : ∀ n, (f n).frame_id = n.frame_id) :
    findNode (updateNode nodes fid f) fid = (findNode nodes fid).map f := by
  induction nodes with
  | nil => rfl
  | cons a t ih =>
    by_cases h : a.frame_id = fid
    · simp [findNode, updateNode, List.find?, h, hf]
    · simp only [findNode, updateNode, List.map_cons] at *
      rw [if_neg (by simpa using h)]
      rw [List.find?_cons_of_neg _ (by simpa using h),
          List.find?_cons_of_neg _ (by simpa using h)]
      exact ih

lemma findNode_updateNode_other (nodes : List LRUKNode) (fid fid2 : FrameId)
    (f : LRUKNode → LRUKNode) (hf : ∀ n, (f n).frame_id = n.frame_id)
    (hne : fid2 ≠ fid) :
    findNode (updateNode nodes fid f) fid2 = findNode nodes fid2 := by
  induction nodes with
  | nil => rfl
  | cons a t ih =>
    by_cases h : a.frame_id = fid
    · have h2 : ¬ (a.frame_id = fid2) := by rw [h]; exact fun hh => hne hh.symm
      simp only [findNode, updateNode, List.map_cons] at *
      rw [if_pos (by simpa using h)]
      rw [List.find?_cons_of_neg _ (by simp [hf, h2]),
          List.find?_cons_of_neg _ (by simpa using h2)]
      exact ih
    · by_cases h2 : a.frame_id = fid2
      · simp [findNode, updateNode, List.find?, h, h2, hne]
      · simp only [findNode, updateNode, List.map_cons] at *
        rw [if_neg (by simpa using h)]
        rw [List.find?_cons_of_neg _ (by simpa using h2),
            List.find?_cons_of_neg _ (by simpa using h2)]
        exact ih

lemma findNode_append_sing (nodes : List LRUKNode) (fid : FrameId) (nd : LRUKNode)
    (h : findNode nodes fid = none) :
    findNode (nodes ++ [nd]) fid =
      if nd.frame_id == fid then some nd else none := by
  induction nodes with
  | nil =>
    simp only [findNode, List.nil_append, List.find?]
    by_cases hnd : nd.frame_id = fid
    · simp [hnd]
    · rw [show (nd.frame_id == fid) = false from by simpa using hnd]
      simp [hnd]
  | cons a t ih =>
    simp only [findNode, List.cons_append] at *
    by_cases ha : a.frame_id = fid
    · rw [List.find?_cons_of_pos _ (by simpa using ha)] at h
      exact absurd h (by simp)
    · rw [List.find?_cons_of_neg _ (by simpa using ha)] at h
      rw [List.find?_cons_of_neg _ (by simpa using ha)]
      exact ih h

lemma record_access_timestamp (p : LRUKEvictionPolicy) (fid : FrameId)
    (ty : AccessType) :
    (p.record_access fid ty).current_timestamp = p.current_timestamp + 1 := rfl

lemma record_access_k (p : LRUKEvictionPolicy) (fid : FrameId) (ty : AccessType) :
    (p.record_access fid ty).k = p.k := rfl

lemma findNode_record_self (p : LRUKEvictionPolicy) (fid : FrameId) (ty : AccessType) :
    findNode (p.record_access fid ty).nodes_store fid = some (recordedNode p fid) := by
  cases h : findNode p.nodes_store fid with
  | none =>
    simp only [LRUKEvictionPolicy.record_access, recordedNode, h, Option.isSome_none,
      Bool.false_eq_true, if_false, if_neg]
    rw [findNode_append_sing _ _ _ h]
    simp [List.length_nil]
  | some nd =>
    simp only [LRUKEvictionPolicy.record_access, recordedNode, h, Option.isSome_some,
      if_true, if_pos]
    rw [findNode_updateNode_self p.nodes_store fid
          (fun n => { n with history :=
            (if n.history.length = p.k then n.history.tail else n.history)
              ++ [p.current_timestamp] }) (fun n => rfl), h]
    rfl

lemma findNode_record_other (p : LRUKEvictionPolicy) (fid fid2 : FrameId)
    (ty : AccessType) (hne : fid2 ≠ fid) :
    findNode (p.record_access fid ty).nodes_store fid2 =
      findNode p.nodes_store fid2 := by
  cases h : findNode p.nodes_store fid with
  | none =>
    simp only [LRUKEvictionPolicy.record_access, h, Option.isSome_none,
      Bool.false_eq_true, if_false, if_neg]
    have hne2 : ¬ (fid = fid2) := fun hh => hne hh.symm
    induction p.nodes_store with
    | nil =>
      simp only [findNode, List.nil_append]
      rw [List.find?_cons_of_neg _ (by simpa using hne2)]
    | cons a t ih =>
      by_cases ha : a.frame_id = fid2
      · simp [findNode, List.find?, ha]
      · simp only [findNode, List.cons_append] at *
        rw [List.find?_cons_of_neg _ (by simpa using ha),
            List.find?_cons_of_neg _ (by simpa using ha)]
        exact ih
  | some nd =>
    simp only [LRUKEvictionPolicy.record_access, h, Option.isSome_some, if_true, if_pos]
    exact findNode_updateNode_other _ _ _ _ (fun n => rfl) hne

lemma recordedNode_getLast (p : LRUKEvictionPolicy) (fid : FrameId) :
    (recordedNode p fid).history.getLast? = some p.current_timestamp := by
  cases h : findNode p.nodes_store fid with
  | none => simp [recordedNode, h]
  | some nd => simp [recordedNode, h, List.getLast?_concat]

lemma set_evictable_eq (p : LRUKEvictionPolicy) (fid : FrameId) (b : Bool)
    (h : (findNode p.nodes_store fid).isSome) :
    p.set_evictable fid b =
      some { p with
        nodes_store := updateNode p.nodes_store fid (fun n => { n with is_evictable := b }) } := by
  simp [LRUKEvictionPolicy.set_evictable, h]

lemma inv_record (p : LRUKEvictionPolicy) (fid : FrameId) (ty : AccessType)
    (hk : 1 ≤ p.k) (h : PolicyInv p) : PolicyInv (p.record_access fid ty) := by
  intro nd hmem
  have hct : (p.record_access fid ty).current_timestamp = p.current_timestamp + 1 :=
    rfl
  have hkk : (p.record_access fid ty).k = p.k := rfl
  rw [hct, hkk]
  have hpush : ∀ a : LRUKNode, a ∈ p.nodes_store →
      (1 ≤ ((if a.history.length = p.k then a.history.tail else a.history)
          ++ [p.current_timestamp]).length ∧
        ((if a.history.length = p.k then a.history.tail else a.history)
          ++ [p.current_timestamp]).length ≤ p.k ∧
        List.Chain' (· < ·)
          ((if a.history.length = p.k then a.history.tail else a.history)
            ++ [p.current_timestamp]) ∧
        ∀ t ∈ (if a.history.length = p.k then a.history.tail else a.history)
            ++ [p.current_timestamp], t < p.current_timestamp + 1) := by
    intro a ha
    obtain ⟨h1, h2, h3, h4⟩ := h a ha
    have hbase : ∀ t ∈ (if a.history.length = p.k then a.history.tail
        else a.history), t < p.current_timestamp := by
      intro t ht
      by_cases hc : a.history.length = p.k
      · exact h4 t (List.tail_subset _ (by simpa [hc] using ht))
      · exact h4 t (by simpa [hc] using ht)
    refine ⟨by simp, ?_, ?_, ?_⟩
    · by_cases hc : a.history.length = p.k
      · rw [if_pos hc]
        simp only [List.length_append, List.length_tail, List.length_cons,
          List.length_nil]
        omega
      · rw [if_neg hc]
        simp only [List.length_append, List.length_cons, List.length_nil]
        omega
    · rw [List.chain'_append]
      refine ⟨?_, List.chain'_singleton _, ?_⟩
      · by_cases hc : a.history.length = p.k
        · simpa [hc] using h3.tail
        · simpa [hc] using h3
      · intro x hx y hy
        simp only [List.head?_cons, Option.mem_def, Option.some.injEq] at hy
        subst hy
        exact hbase x (mem_of_mem_getLast? hx)
    · intro t ht
      rcases List.mem_append.mp ht with hl | hr
      · exact lt_trans (hbase t hl) (Nat.lt_succ_self _)
      · simp only [List.mem_singleton] at hr
        subst hr
        exact Nat.lt_succ_self _
  simp only [LRUKEvictionPolicy.record_access] at hmem
  by_cases hfound : (findNode p.nodes_store fid).isSome
  · rw [if_pos hfound] at hmem
    simp only [updateNode, List.mem_map] at hmem
    obtain ⟨a, ha, rfl⟩ := hmem
    by_cases hfid : a.frame_id == fid
    · simpa [hfid] using hpush a ha
    · simp only [hfid, Bool.false_eq_true, if_neg, if_false]
      obtain ⟨h1, h2, h3, h4⟩ := h a ha
      exact ⟨h1, h2, h3, fun t ht => lt_trans (h4 t ht) (Nat.lt_succ_self _)⟩
  · rw [if_neg hfound] at hmem
    rcases List.mem_append.mp hmem with hl | hr
    · obtain ⟨h1, h2, h3, h4⟩ := h nd hl
      exact ⟨h1, h2, h3, fun t ht => lt_trans (h4 t ht) (Nat.lt_succ_self _)⟩
    · simp only [List.mem_singleton] at hr
      subst hr
      simp only [List.length_nil, List.nil_append]
      refine ⟨?_, ?_, ?_, ?_⟩
      · simp
      · simpa using hk
      · by_cases hc : (0 : Nat) = p.k <;> simp [hc]
      · intro t ht
        by_cases hc : (0 : Nat) = p.k <;>
          simp only [hc] at ht <;> simp at ht <;> omega

lemma inv_set_evictable (p q : LRUKEvictionPolicy) (fid : FrameId) (b : Bool)
    (hq : p.set_evictable fid b = some q) (h : PolicyInv p) : PolicyInv q := by
  simp only [LRUKEvictionPolicy.set_evictable] at hq
  by_cases hf : (findNode p.nodes_store fid).isSome
  · rw [if_pos hf] at hq
    obtain rfl := Option.some.inj hq
    intro nd hmem
    simp only [updateNode, List.mem_map] at hmem
    obtain ⟨a, ha, rfl⟩ := hmem
    obtain ⟨h1, h2, h3, h4⟩ := h a ha
    by_cases hfid : a.frame_id == fid <;> simp [hfid] <;> exact ⟨h1, h2, h3, h4⟩
  · rw [if_neg hf] at hq
    exact absurd hq (by simp)

lemma inv_remove (p : LRUKEvictionPolicy) (fid : FrameId) (h : PolicyInv p) :
    PolicyInv (p.remove fid) := by
  intro nd hmem
  simp only [LRUKEvictionPolicy.remove, List.mem_filter] at hmem
  exact h nd hmem.1

lemma inv_evict (p : LRUKEvictionPolicy) (h : PolicyInv p) :
    PolicyInv (p.evict).2 := by
  simp only [LRUKEvictionPolicy.evict]
  cases hsel : (p.nodes_store.foldl
      (evictStep p.k p.current_timestamp) ⟨none, 0, 0⟩).frame_to_evict with
  | none => simpa [hsel] using h
  | some fid => simpa [hsel] using inv_remove p fid h

lemma applyOp_k (p q : LRUKEvictionPolicy) (op : PolicyOp)
    (h : applyOp p op = some q) : q.k = p.k := by
  cases op with
  | record fid ty =>
    simp only [applyOp] at h
    obtain rfl := Option.some.inj h
    rfl
  | setEv fid b =>
    simp only [applyOp, LRUKEvictionPolicy.set_evictable] at h
    by_cases hf : (findNode p.nodes_store fid).isSome
    · rw [if_pos hf] at h
      obtain rfl := Option.some.inj h
      rfl
    · rw [if_neg hf] at h
      exact absurd h (by simp)
  | rem fid =>
    simp only [applyOp] at h
    obtain rfl := Option.some.inj h
    rfl
  | evictOp =>
    simp only [applyOp] at h
    obtain rfl := Option.some.inj h
    simp only [LRUKEvictionPolicy.evict]
    cases hsel : (p.nodes_store.foldl
        (evictStep p.k p.current_timestamp) ⟨none, 0, 0⟩).frame_to_evict <;>
      simp [hsel, LRUKEvictionPolicy.remove]

lemma applyOp_inv (p q : LRUKEvictionPolicy) (op : PolicyOp) (hk : 1 ≤ p.k)
    (h : applyOp p op = some q) (hinv : PolicyInv p) : PolicyInv q := by
  cases op with
  | record fid ty =>
    simp only [applyOp] at h
    obtain rfl := Option.some.inj h
    exact inv_record p fid ty hk hinv
  | setEv fid b =>
    exact inv_set_evictable p q fid b h hinv
  | rem fid =>
    simp only [applyOp] at h
    obtain rfl := Option.some.inj h
    exact inv_remove p fid hinv
  | evictOp =>
    simp only [applyOp] at h
    obtain rfl := Option.some.inj h
    exact inv_evict p hinv

lemma runOps_inv (ops : List PolicyOp) :
    ∀ p q : LRUKEvictionPolicy, 1 ≤ p.k → PolicyInv p →
      runOps p ops = some q → q.k = p.k ∧ PolicyInv q := by
  induction ops with
  | nil =>
    intro p q _ hinv h
    obtain rfl := Option.some.inj h
    exact ⟨rfl, hinv⟩
  | cons op rest ih =>
    intro p q hk hinv h
    simp only [runOps] at h
    cases hstep : applyOp p op with
    | none => rw [hstep] at h; exact absurd h (by simp)
    | some r =>
      rw [hstep] at h
      simp only [Option.some_bind] at h
      have hkr : r.k = p.k := applyOp_k p r op hstep
      have hinvr : PolicyInv r := applyOp_inv p r op hk hstep hinv
      obtain ⟨hq1, hq2⟩ := ih r q (by omega) hinvr h
      exact ⟨by omega, hq2⟩

lemma c2L1 : BufferPool.get_page_write cursorRW c2S0 0 = .ok (0, c2S1) := by
  simp [c2S0, c2S1, BufferPool.new, BufferPool.get_page_write, lookupPT, insertPT,
    BufferPool.try_get_free_frane, BufferPool.load_page_from_disk, workerRead,
    cursorRW, page_id_to_file_offset, BufferPool.acquireWrite, PageWriteGuard.new,
    LRUKEvictionPolicy.record_access, LRUKEvictionPolicy.set_evictable, findNode,
    updateNode, LRUKEvictionPolicy.new, Frame.new, theEmptyPageLength, pageSizeNeZero,
    List.range_succ, List.range_zero, lastSingleton, dropLastSingleton,
    List.replicate_one, Except.bind, Except.map]

lemma c2L2 : BufferPool.guardSetData c2S1 0 c2WrittenBytes = c2S1b := rfl

lemma c2L3 : BufferPool.dropWrite c2S1b 0 = .ok c2S2 := rfl

lemma c2L4 : BufferPool.get_page_read cursorRW c2S2 1 = .ok (0, c2S3) := by
  simp [c2S2, c2S3, BufferPool.get_page_read, lookupPT, insertPT,
    BufferPool.try_get_free_frane, BufferPool.load_page_from_disk, workerRead,
    cursorRW, page_id_to_file_offset, BufferPool.acquireRead, PageReadGuard.new,
    LRUKEvictionPolicy.record_access, LRUKEvictionPolicy.set_evictable, findNode,
    updateNode, LRUKEvictionPolicy.evict, evictStep, LRUKEvictionPolicy.remove,
    theEmptyPageLength, pageSizeNeZero, twicePageNotLe, c2WrittenBytes,
    BACKWARD_DISTANCE_INF, Except.bind, Except.map,
    takePageEmpty, dropTwicePageEmpty,
    lastSingleton, dropLastSingleton]

lemma c2L5 : BufferPool.dropRead c2S3 0 = .ok c2S4 := rfl

lemma c2L6 : BufferPool.get_page_read cursorRW c2S4 0 = .ok (0, c2S5) := rfl

lemma c2ScenarioEval : c2Scenario = .ok THE_EMPTY_PAGE := by
  have h0 : (BufferPool.new 1 2 ⟨[], 0⟩ : BufferPool Cursor) = c2S0 := rfl
  simp only [c2Scenario, h0, c2L1, c2L2, c2L3, c2L4, c2L5, c2L6,
    Except.bind, Except.map, bind, pure, Except.pure]
  rfl

lemma c5General (c : Cursor) (pid : PageId) (d : List Nat)
    (hofs : c.bytes.length ≤ page_id_to_file_offset pid)
    (hd : d.length = PAGE_SIZE) :
    workerRead cursorRW c pid d =
      .done (.ok ())
        ⟨c.bytes ++ List.replicate (page_id_to_file_offset pid - c.bytes.length) 0
            ++ THE_EMPTY_PAGE,
          page_id_to_file_offset pid + PAGE_SIZE⟩
        THE_EMPTY_PAGE false := by
  have hps : 0 < PAGE_SIZE := pageSizePos
  have hcond : ¬ (page_id_to_file_offset pid + PAGE_SIZE ≤ c.bytes.length) := by
    omega
  have hmin : min (page_id_to_file_offset pid + PAGE_SIZE) c.bytes.length
      = c.bytes.length := by
    omega
  have hmax : max (page_id_to_file_offset pid) c.bytes.length
      = page_id_to_file_offset pid := by
    omega
  have hdrop : List.drop (page_id_to_file_offset pid + PAGE_SIZE) c.bytes = [] := by
    refine List.drop_of_length_le ?_
    omega
  have htake : List.take (page_id_to_file_offset pid) c.bytes = c.bytes :=
    List.take_of_length_le hofs
  simp only [workerRead, cursorRW, hd, if_neg hcond, hmin, hmax, hdrop, htake,
    theEmptyPageLength, List.append_nil]

lemma c5Pool : BufferPool.get_page_read cursorRW (BufferPool.new 1 2 ⟨[], 0⟩) 5 =
    .ok (0, c5PoolState) := by
  simp [c5PoolState, BufferPool.new, BufferPool.get_page_read, lookupPT, insertPT,
    BufferPool.try_get_free_frane, BufferPool.load_page_from_disk, workerRead,
    cursorRW, page_id_to_file_offset, BufferPool.acquireRead, PageReadGuard.new,
    LRUKEvictionPolicy.record_access, LRUKEvictionPolicy.set_evictable, findNode,
    updateNode, LRUKEvictionPolicy.new, Frame.new, theEmptyPageLength, pageSizeNeZero,
    List.range_succ, List.range_zero, lastSingleton, dropLastSingleton,
    List.replicate_one, Except.bind, Except.map]
/-! ## Scenario evaluation lemmas for claim C3 -/

lemma c3L2 : BufferPool.dropWrite c2S1 0 = .ok c3S2 := rfl

lemma c3L4 : BufferPool.get_page_read cursorRW c3S2 1 = .ok (0, c2S3) := by
  simp [c3S2, c2S3, BufferPool.get_page_read, lookupPT, insertPT,
    BufferPool.try_get_free_frane, BufferPool.load_page_from_disk, workerRead,
    cursorRW, page_id_to_file_offset, BufferPool.acquireRead, PageReadGuard.new,
    LRUKEvictionPolicy.record_access, LRUKEvictionPolicy.set_evictable, findNode,
    updateNode, LRUKEvictionPolicy.evict, evictStep, LRUKEvictionPolicy.remove,
    theEmptyPageLength, pageSizeNeZero, twicePageNotLe,
    BACKWARD_DISTANCE_INF, Except.bind, Except.map,
    takePageEmpty, dropTwicePageEmpty,
    lastSingleton, dropLastSingleton]

/-! ## Claim theorems -/

/-- Claim C1 (code bug): `evict` does not select the evictable node with
the largest backward K-distance in the spec's sense.  In the reachable
state `c1State` (reached by `c1Ops` from a fresh policy with `k = 2`),
`evict` returns frame 2, although the evictable frame 1 has spec backward
K-distance `5 - 1 = 4`, strictly larger than frame 2's `5 - 2 = 3`: the
source computes the distance from the MOST recent recorded access
(`history.iter().last()`), not from the K-th most recent one as its own
doc comment states. -/
theorem evict_picks_smaller_spec_distance :
    runOps (LRUKEvictionPolicy.new 2 7) c1Ops = some c1State ∧
    (c1State.evict).1 = some 2 ∧
    findNode c1State.nodes_store 1 = some ⟨1, true, [1, 4]⟩ ∧
    specBackwardKDistance c1State.k c1State.current_timestamp ⟨1, true, [1, 4]⟩ =
      some 4 ∧
    specBackwardKDistance c1State.k c1State.current_timestamp ⟨2, true, [2, 3]⟩ =
      some 3 ∧
    3 < 4 := by
  decide

/-- Claim C2 (code bug): the write-evict-reload round trip loses the
written bytes, because the source never flushes a dirty frame on eviction
(the flush is a `TODO` in `impl Drop for PageWriteGuard` and absent from
the miss path).  In the scenario, the reload of page 0 yields the all-zero
page instead of the all-ones page `c2WrittenBytes` that was written. -/
theorem roundtrip_loses_written_bytes :
    c2Scenario = .ok (List.replicate PAGE_SIZE 0) ∧
    c2WrittenBytes ≠ List.replicate PAGE_SIZE 0 := by
  constructor
  · exact c2ScenarioEval
  · intro h
    have h1 := congrArg List.head? h
    simp only [c2WrittenBytes, List.head?_replicate] at h1
    rw [if_neg pageSizeNeZero, if_neg pageSizeNeZero] at h1
    exact absurd h1 (by decide)

/-- Claim C3 (code bug): after evicting page 0's frame to host page 1, the
pool leaves the stale entry `0 ↦ 0` in the page table, so the page table
contains an entry pointing at a frame whose latest successful load (the
ghost `lastLoad`, here `[some 1]`) was for a different page. -/
theorem stale_page_table_entry_after_eviction :
    c3Scenario = .ok ([(0, 0), (1, 0)], [some 1], []) ∧
    tableLoadsAgree [(0, 0), (1, 0)] [some 1] = false := by
  constructor
  · have h0 : (BufferPool.new 1 2 ⟨[], 0⟩ : BufferPool Cursor) = c2S0 := rfl
    simp only [c3Scenario, h0, c2L1, c3L2, c3L4, Except.bind, bind, pure,
      Except.pure]
    rfl
  · decide

/-- Claim C4 (code bug): when the worker delivers an I/O error for the
submitted read, the pool still hands out a guard as if the load had
succeeded — `load_page_from_disk` parks the thread and never inspects a
completion result (the frozen source even passes `thread::current()` where
the scheduler's `schedule_read` takes no such argument). -/
theorem io_error_not_propagated_to_caller :
    workerRead failRW () 0 (List.replicate PAGE_SIZE 0) =
      .done (.error .IOError) () (List.replicate PAGE_SIZE 0) false ∧
    c4Scenario.toOption.map (fun r => r.1) = some 0 :=
  ⟨rfl, by decide⟩

/-- Claim C5 (confirmed): for a scheduled read whose offset lies at or past
the end of the backing store, the worker writes an all-zero `PAGE_SIZE`
block at offset `page_id × PAGE_SIZE`, fills the destination frame with
zeros, and delivers a success result; consequently fetching page 5 over an
empty store yields a guard over an all-zero buffer. -/
theorem eof_read_zero_fills (c : Cursor) (pid : PageId) (d : List Nat)
    (hofs : c.bytes.length ≤ page_id_to_file_offset pid)
    (hd : d.length = PAGE_SIZE) :
    (∃ c2 : Cursor,
      workerRead cursorRW c pid d = .done (.ok ()) c2 THE_EMPTY_PAGE false ∧
      (c2.bytes.drop (page_id_to_file_offset pid)).take PAGE_SIZE =
        List.replicate PAGE_SIZE 0 ∧
      c2.bytes.length = page_id_to_file_offset pid + PAGE_SIZE) ∧
    THE_EMPTY_PAGE = List.replicate PAGE_SIZE 0 ∧
    BufferPool.get_page_read cursorRW (BufferPool.new 1 2 ⟨[], 0⟩) 5 =
      .ok (0, c5PoolState) ∧
    c5PoolState.frames.map (fun f => f.data) = [List.replicate PAGE_SIZE 0] := by
  refine ⟨⟨_, c5General c pid d hofs hd, ?_, ?_⟩, rfl, c5Pool, rfl⟩
  · have hlen : (c.bytes ++
        List.replicate (page_id_to_file_offset pid - c.bytes.length) 0).length
        = page_id_to_file_offset pid := by
      simp only [List.length_append, List.length_replicate]
      omega
    rw [List.drop_left' hlen]
    simp only [THE_EMPTY_PAGE, List.take_replicate, min_self]
  · simp only [List.length_append, List.length_replicate, theEmptyPageLength]
    omega

/-- Witness for claim C5: the empty store and page 5, with an all-zero
frame buffer of length `PAGE_SIZE`. -/
theorem eof_read_zero_fills_witness :
    (Cursor.mk [] 0).bytes.length ≤ page_id_to_file_offset 5 ∧
    (List.replicate PAGE_SIZE 0).length = PAGE_SIZE ∧
    ((∃ c2 : Cursor,
      workerRead cursorRW ⟨[], 0⟩ 5 (List.replicate PAGE_SIZE 0) =
        .done (.ok ()) c2 THE_EMPTY_PAGE false ∧
      (c2.bytes.drop (page_id_to_file_offset 5)).take PAGE_SIZE =
        List.replicate PAGE_SIZE 0 ∧
      c2.bytes.length = page_id_to_file_offset 5 + PAGE_SIZE) ∧
    THE_EMPTY_PAGE = List.replicate PAGE_SIZE 0 ∧
    BufferPool.get_page_read cursorRW (BufferPool.new 1 2 ⟨[], 0⟩) 5 =
      .ok (0, c5PoolState) ∧
    c5PoolState.frames.map (fun f => f.data) = [List.replicate PAGE_SIZE 0]) :=
  ⟨Nat.zero_le _, by simp,
    eof_read_zero_fills ⟨[], 0⟩ 5 (List.replicate PAGE_SIZE 0) (Nat.zero_le _)
      (by simp)⟩
/-- Claim C6 (confirmed): acquiring a read or write guard records a
`Lookup` access (appending the current timestamp to the node's history and
bumping the counter by one), marks the frame non-evictable, and increments
`pin_count` by exactly one; a write guard additionally sets `is_dirty`;
dropping a guard decrements `pin_count` by exactly one and marks the frame
evictable in the policy exactly when the count reaches zero (the policy is
untouched otherwise); the write-guard drop is identical to the read-guard
drop. -/
theorem guard_pin_accounting (pol : LRUKEvictionPolicy) (f : Frame)
    (fid : FrameId) :
    (∃ polR fR, PageReadGuard.new pol f fid = some (polR, fR) ∧
      fR.pin_count = f.pin_count + 1 ∧ fR.is_dirty = f.is_dirty ∧ fR.data = f.data ∧
      polR.current_timestamp = pol.current_timestamp + 1 ∧
      ∃ ndR, findNode polR.nodes_store fid = some ndR ∧
        ndR.is_evictable = false ∧
        ndR.history.getLast? = some pol.current_timestamp) ∧
    (∃ polW fW, PageWriteGuard.new pol f fid = some (polW, fW) ∧
      fW.pin_count = f.pin_count + 1 ∧ fW.is_dirty = true ∧ fW.data = f.data ∧
      polW.current_timestamp = pol.current_timestamp + 1 ∧
      ∃ ndW, findNode polW.nodes_store fid = some ndW ∧
        ndW.is_evictable = false ∧
        ndW.history.getLast? = some pol.current_timestamp) ∧
    (∀ (n : Nat) (nd : LRUKNode), f.pin_count = n + 1 →
      findNode pol.nodes_store fid = some nd →
      ∃ polD fD, PageReadGuard.dropGuard pol f fid = some (polD, fD) ∧
        fD.pin_count = n ∧ fD.is_dirty = f.is_dirty ∧ fD.data = f.data ∧
        (n = 0 → findNode polD.nodes_store fid =
          some { nd with is_evictable := true }) ∧
        (n ≠ 0 → polD = pol)) ∧
    PageWriteGuard.dropGuard pol f fid = PageReadGuard.dropGuard pol f fid := by
  have hsome : (findNode
      (pol.record_access fid AccessType.Lookup).nodes_store fid).isSome := by
    rw [findNode_record_self]; rfl
  have hset := set_evictable_eq (pol.record_access fid AccessType.Lookup) fid false
    hsome
  have hfindR :
      findNode (updateNode (pol.record_access fid AccessType.Lookup).nodes_store fid
        (fun m => { m with is_evictable := false })) fid =
      some { recordedNode pol fid with is_evictable := false } := by
    rw [findNode_updateNode_self
          (pol.record_access fid AccessType.Lookup).nodes_store fid
          (fun m => { m with is_evictable := false }) (fun m => rfl),
        findNode_record_self]
    rfl
  refine ⟨?_, ?_, ?_, rfl⟩
  · refine ⟨{ pol.record_access fid AccessType.Lookup with
        nodes_store := updateNode (pol.record_access fid AccessType.Lookup).nodes_store fid (fun m => { m with is_evictable := false }) },
      { f with pin_count := f.pin_count + 1 }, ?_, rfl, rfl, rfl, rfl,
      ⟨{ recordedNode pol fid with is_evictable := false }, hfindR, rfl,
        recordedNode_getLast pol fid⟩⟩
    simp only [PageReadGuard.new, hset, Option.map_some']
  · refine ⟨{ pol.record_access fid AccessType.Lookup with
        nodes_store := updateNode (pol.record_access fid AccessType.Lookup).nodes_store fid (fun m => { m with is_evictable := false }) },
      { f with pin_count := f.pin_count + 1, is_dirty := true }, ?_, rfl, rfl, rfl,
      rfl,
      ⟨{ recordedNode pol fid with is_evictable := false }, hfindR, rfl,
        recordedNode_getLast pol fid⟩⟩
    simp only [PageWriteGuard.new, hset, Option.map_some']
  · intro n nd hpin hnd
    cases n with
    | zero =>
      have hpin0 : f.pin_count - 1 = 0 := by omega
      have hsome2 : (findNode pol.nodes_store fid).isSome := by rw [hnd]; rfl
      have hset2 := set_evictable_eq pol fid true hsome2
      refine ⟨{ pol with nodes_store := updateNode pol.nodes_store fid (fun m => { m with is_evictable := true }) },
        { f with pin_count := f.pin_count - 1 }, ?_, hpin0, rfl, rfl, fun _ => ?_,
        fun hh => absurd rfl hh⟩
      · simp only [PageReadGuard.dropGuard, hpin0]
        rw [if_pos trivial, hset2]
        rfl
      · show findNode (updateNode pol.nodes_store fid
            (fun m => { m with is_evictable := true })) fid =
          some { nd with is_evictable := true }
        rw [findNode_updateNode_self pol.nodes_store fid
              (fun m => { m with is_evictable := true }) (fun m => rfl), hnd]
        rfl
    | succ m =>
      have hpin1 : f.pin_count - 1 = m + 1 := by omega
      refine ⟨pol, { f with pin_count := f.pin_count - 1 }, ?_, hpin1, rfl, rfl,
        fun hh => absurd hh (Nat.succ_ne_zero m), fun _ => rfl⟩
      simp only [PageReadGuard.dropGuard, hpin1]
      rw [if_neg (Nat.succ_ne_zero m)]

/-- Witness for claim C6: the acquisition halves are instantiated at a
FIRST acquisition — a fresh policy with no tracked nodes and an unpinned
frame (`pin_count = 0`), the situation of the pool's own miss path — and
the drop half at a tracked node with `pin_count = 1`. -/
theorem guard_pin_accounting_witness :
    (∃ polR fR, PageReadGuard.new c6FreshPol c6FreshFrame 0 = some (polR, fR) ∧
      fR.pin_count = c6FreshFrame.pin_count + 1 ∧
      fR.is_dirty = c6FreshFrame.is_dirty ∧
      fR.data = c6FreshFrame.data ∧
      polR.current_timestamp = c6FreshPol.current_timestamp + 1 ∧
      ∃ ndR, findNode polR.nodes_store 0 = some ndR ∧
        ndR.is_evictable = false ∧
        ndR.history.getLast? = some c6FreshPol.current_timestamp) ∧
    (∃ polW fW, PageWriteGuard.new c6FreshPol c6FreshFrame 0 = some (polW, fW) ∧
      fW.pin_count = c6FreshFrame.pin_count + 1 ∧ fW.is_dirty = true ∧
      fW.data = c6FreshFrame.data ∧
      polW.current_timestamp = c6FreshPol.current_timestamp + 1 ∧
      ∃ ndW, findNode polW.nodes_store 0 = some ndW ∧
        ndW.is_evictable = false ∧
        ndW.history.getLast? = some c6FreshPol.current_timestamp) ∧
    (c6Frame.pin_count = 0 + 1 ∧
     findNode c6Pol.nodes_store 0 = some c6Node ∧
     ∃ polD fD, PageReadGuard.dropGuard c6Pol c6Frame 0 = some (polD, fD) ∧
      fD.pin_count = 0 ∧ fD.is_dirty = c6Frame.is_dirty ∧ fD.data = c6Frame.data ∧
      (0 = 0 → findNode polD.nodes_store 0 =
        some { c6Node with is_evictable := true }) ∧
      (0 ≠ 0 → polD = c6Pol)) ∧
    PageWriteGuard.dropGuard c6Pol c6Frame 0 =
      PageReadGuard.dropGuard c6Pol c6Frame 0 :=
  ⟨(guard_pin_accounting c6FreshPol c6FreshFrame 0).1,
   (guard_pin_accounting c6FreshPol c6FreshFrame 0).2.1,
   ⟨rfl, rfl, (guard_pin_accounting c6Pol c6Frame 0).2.2.1 0 c6Node rfl rfl⟩,
   (guard_pin_accounting c6Pol c6Frame 0).2.2.2⟩

/-- Claim C7 (code bug): `send` before any `recv` deposits the value and
returns `Ok`, yet the subsequent `recv` returns `Err(Closed)` and discards
the deposited value, because `recv` decides "closed" by `Arc::try_unwrap`
on the shared data's reference count, which succeeds as soon as the sender
half is gone — whether it sent or not.  The parts of the claim about a
dropped peer do hold: send after the receiver is dropped fails with
`Closed`, and recv after the sender is dropped without sending fails with
`Closed`. -/
theorem recv_after_completed_send_returns_closed :
    (OneshotChannelSender.send c7Chan 69).1 = .ok () ∧
    (OneshotChannelSender.send c7Chan 69).2.slot = some 69 ∧
    (OneshotChannelReceiver.recv (OneshotChannelSender.send c7Chan 69).2).1 =
      .ret (.error .Closed) ∧
    (OneshotChannelSender.send (dropReceiverHalf c7Chan) 69).1 = .error .Closed ∧
    (OneshotChannelReceiver.recv (dropSenderHalf c7Chan)).1 =
      .ret (.error .Closed) := by
  decide

/-- Claim C8 (confirmed): over any panic-free run of policy operations
from a fresh policy with `k ≥ 1`, every tracked node's history length stays
in `[1, k]`, histories are strictly increasing with all entries below the
current counter; and `record_access` bumps the counter by exactly one,
inserts an absent node as non-evictable with exactly the current timestamp,
and appends the current timestamp to a present node's history, dropping the
oldest entry first when the history already holds `k` entries. -/
theorem record_access_history_invariants (k m : Nat) (ops : List PolicyOp)
    (p : LRUKEvictionPolicy) (hk : 1 ≤ k)
    (hrun : runOps (LRUKEvictionPolicy.new k m) ops = some p) :
    (∀ nd ∈ p.nodes_store, 1 ≤ nd.history.length ∧ nd.history.length ≤ k ∧
      nd.history.Chain' (· < ·) ∧ ∀ t ∈ nd.history, t < p.current_timestamp) ∧
    (∀ fid ty, (p.record_access fid ty).current_timestamp =
      p.current_timestamp + 1) ∧
    (∀ fid ty, findNode p.nodes_store fid = none →
      findNode (p.record_access fid ty).nodes_store fid =
        some ⟨fid, false, [p.current_timestamp]⟩) ∧
    (∀ fid ty nd, findNode p.nodes_store fid = some nd →
      findNode (p.record_access fid ty).nodes_store fid =
        some { nd with history :=
          (if nd.history.length = k then nd.history.tail else nd.history)
            ++ [p.current_timestamp] }) := by
  obtain ⟨hpk, hinv⟩ := runOps_inv ops (LRUKEvictionPolicy.new k m) p
    (by simpa [LRUKEvictionPolicy.new] using hk)
    (by intro nd hnd; simp [LRUKEvictionPolicy.new] at hnd)
    hrun
  have hpk2 : p.k = k := by simpa [LRUKEvictionPolicy.new] using hpk
  refine ⟨?_, fun fid ty => rfl, ?_, ?_⟩
  · intro nd hnd
    have hh := hinv nd hnd
    rwa [hpk2] at hh
  · intro fid ty hnone
    rw [findNode_record_self p fid ty]
    simp [recordedNode, hnone]
  · intro fid ty nd hsome
    rw [findNode_record_self p fid ty]
    simp [recordedNode, hsome, hpk2]

/-- Witness for claim C8: `k = 1` and the single-operation run
`record_access 0`. -/
theorem record_access_history_invariants_witness :
    1 ≤ 1 ∧
    runOps (LRUKEvictionPolicy.new 1 1) [.record 0 .Lookup] = some c8State ∧
    ((∀ nd ∈ c8State.nodes_store, 1 ≤ nd.history.length ∧ nd.history.length ≤ 1 ∧
      nd.history.Chain' (· < ·) ∧ ∀ t ∈ nd.history, t < c8State.current_timestamp) ∧
     (∀ fid ty, (c8State.record_access fid ty).current_timestamp =
       c8State.current_timestamp + 1) ∧
     (∀ fid ty, findNode c8State.nodes_store fid = none →
       findNode (c8State.record_access fid ty).nodes_store fid =
         some ⟨fid, false, [c8State.current_timestamp]⟩) ∧
     (∀ fid ty nd, findNode c8State.nodes_store fid = some nd →
       findNode (c8State.record_access fid ty).nodes_store fid =
         some { nd with history :=
           (if nd.history.length = 1 then nd.history.tail else nd.history)
             ++ [c8State.current_timestamp] })) :=
  ⟨Nat.le_refl 1, by decide,
    record_access_history_invariants 1 1 [.record 0 .Lookup] c8State
      (Nat.le_refl 1) (by decide)⟩

/-- Claim C9 (confirmed): on a miss with an empty free list and a policy
that cannot evict, both `get_page_read` and `get_page_write` fail with the
pool-full panic (modelled as an error) and no guard is produced. -/
theorem pool_exhausted_fails {σ : Type} (rw : ReaderWriter σ) (s : BufferPool σ)
    (pid : PageId) (hmiss : lookupPT s.page_table pid = none)
    (hfl : s.free_list = []) (hev : (s.eviction_policy.evict).1 = none) :
    BufferPool.get_page_read rw s pid = .error .poolFull ∧
    BufferPool.get_page_write rw s pid = .error .poolFull := by
  have htry : s.try_get_free_frane =
      (none, { s with eviction_policy := (s.eviction_policy.evict).2 }) := by
    simp only [BufferPool.try_get_free_frane, hfl]
    rw [show ([] : List FrameId).getLast? = none from rfl]
    rw [hev]
  constructor
  · simp only [BufferPool.get_page_read, hmiss, htry]
  · simp only [BufferPool.get_page_write, hmiss, htry]

/-- Witness for claim C9: a one-frame pool whose only frame is pinned
(non-evictable) and whose free list is empty, fetching unmapped page 1. -/
theorem pool_exhausted_fails_witness :
    lookupPT c9State.page_table 1 = none ∧
    c9State.free_list = [] ∧
    (c9State.eviction_policy.evict).1 = none ∧
    (BufferPool.get_page_read failRW c9State 1 = .error .poolFull ∧
     BufferPool.get_page_write failRW c9State 1 = .error .poolFull) :=
  ⟨by decide, rfl, by decide,
    pool_exhausted_fails failRW c9State 1 (by decide) rfl (by decide)⟩

/-- Claim C10 (confirmed): the request queue is a stack.  `schedule_read`
and `schedule_write` push onto the end of the shared vector, and the
worker's `Vec::pop` removes from the end, so of two requests enqueued in
order with no dequeue in between, the second is serviced first. -/
theorem request_queue_is_lifo :
    ∀ (q : List QueueRequest) (p : PageId),
      DiskScheduler.schedule_read q p = enqueueRequest q (.read p) ∧
      DiskScheduler.schedule_write q p = enqueueRequest q (.write p) ∧
      ∀ r1 r2 : QueueRequest,
        workerPop (enqueueRequest (enqueueRequest q r1) r2) =
          (some r2, enqueueRequest q r1) := by
  intro q p
  refine ⟨rfl, rfl, fun r1 r2 => ?_⟩
  simp [workerPop, enqueueRequest]
